import Mathlib

/-!
Shallow embedding of the notification fan-out subsystem of the teleka-testing
server (files `src/server.js` and `src/unnamed/part_003`): the persistent
email retry queue and its processor, the push-subscription store with its
subscribe and dispatch operations, the in-memory SSE client registry, the
booking-creation handler, and the timer that drives the queue processor.

Machine time is modelled as a natural number of milliseconds.  Database
document ids are natural numbers.  Asynchronous send outcomes are modelled
as explicit data (an eventual result together with the duration until the
underlying operation settles), so that the 10-second `Promise.race` timeout
guard in the source can be expressed.
-/

namespace Teleka

/-! ## Retry queue data model (`part_003` lines 1524-1537, `emailQueueSchema`)

One document of the `EmailQueue` collection.  Schema defaults: `attempts` 0,
`nextAttemptAt` and `createdAt` the current time, `lastError` unset. -/

structure QueueItem where
  id : Nat
  toAddr : String
  from_ : String
  subject : String
  text : String
  html : String
  attempts : Nat
  nextAttemptAt : Nat
  createdAt : Nat
  lastError : Option String
  bookingId : Option String
deriving DecidableEq, Repr

/-- Base retry delay from `part_003` line 1590: `60 * 1000` milliseconds. -/
def baseDelayMs : Nat := 60 * 1000

/-- Backoff cap from `part_003` line 1590: `24 * 3600 * 1000` milliseconds. -/
def capMs : Nat := 24 * 3600 * 1000

/-- The computed backoff delay, `part_003` line 1590:
`Math.min(60 * 1000 * Math.pow(2, item.attempts), 24 * 3600 * 1000)`,
evaluated after `item.attempts` has been incremented. -/
def backoffMs (attempts : Nat) : Nat := min (baseDelayMs * 2 ^ attempts) capMs

/-- The failure branch of the queue processor, `part_003` lines 1589-1592:
increment `attempts`, recompute `nextAttemptAt` from the incremented value
and the current time, and record the error message. -/
def failUpdate (now : Nat) (errMsg : String) (item : QueueItem) : QueueItem :=
  { item with
    attempts := item.attempts + 1
    nextAttemptAt := now + backoffMs (item.attempts + 1)
    lastError := some errMsg }

/-- The `enqueueEmail` operation, `part_003` lines 1539-1548: persist a new
document whose payload fields come from the caller and whose `attempts`,
`nextAttemptAt`, `createdAt` and `lastError` fields take the schema
defaults (0, now, now, unset). -/
def enqueueEmail (newId now : Nat) (toA fromA subj txt htm : String)
    (bId : Option String) (queue : List QueueItem) : List QueueItem :=
  queue ++ [⟨newId, toA, fromA, subj, txt, htm, 0, now, now, none, bId⟩]

/-! ## Send attempts and the 10-second timeout guard -/

instance {ε α : Type} [DecidableEq ε] [DecidableEq α] : DecidableEq (Except ε α) :=
  fun x y =>
    match x, y with
    | Except.ok a, Except.ok b =>
        if h : a = b then isTrue (by rw [h]) else isFalse (by simp [h])
    | Except.error a, Except.error b =>
        if h : a = b then isTrue (by rw [h]) else isFalse (by simp [h])
    | Except.ok _, Except.error _ => isFalse (by simp)
    | Except.error _, Except.ok _ => isFalse (by simp)

/-- One underlying `transporter.sendMail` invocation: the time until the
promise settles, and what it settles to (a message id, or an error). -/
structure SendAttempt where
  duration : Nat
  result : Except String String
deriving DecidableEq, Repr

/-- The guard `Promise.race([mailPromise, timeout-after-10000ms])` used by
`part_003` at lines 1422-1425, 1498-1501 and 1578-1581: a send that has not
settled when the 10000 ms timer fires is rejected with the timeout error. -/
def raceWithTimeout10s (a : SendAttempt) : Except String String :=
  if 10000 ≤ a.duration then Except.error "Email send timeout (10s)" else a.result

/-- Whether a queued send attempt succeeds once raced against the timeout. -/
def sendSucceeds (attempt : QueueItem → SendAttempt) (i : QueueItem) : Bool :=
  match raceWithTimeout10s (attempt i) with
  | Except.ok _ => true
  | Except.error _ => false

/-- The error message the failure branch stores for a queued item. -/
def sendErrMsg (attempt : QueueItem → SendAttempt) (i : QueueItem) : String :=
  match raceWithTimeout10s (attempt i) with
  | Except.ok _ => ""
  | Except.error e => e

/-- The `sendEmail` helper of `src/server.js` lines 605-627.  It rejects a
missing recipient or subject, runs in dry-run mode without a transporter,
and otherwise awaits `transporter.sendMail` directly — with no
`Promise.race` timeout — returning the message id on success and `null`
(here `none`) on failure, never throwing and never enqueueing. -/
def sendEmailServerJs (toA subj : String) (transporterConfigured : Bool)
    (a : SendAttempt) : Option String :=
  if toA = "" ∨ subj = "" then none
  else if transporterConfigured = false then none
  else
    match a.result with
    | Except.ok info => some info
    | Except.error _ => none

/-- Control skeleton of `sendAdminEmail`, `part_003` lines 1376-1445: skip
when no transporter is configured; otherwise race the send against the
10-second timer; on success do nothing further; on failure enqueue the
message for retry. -/
def sendAdminEmailStep (transporterConfigured : Bool) (a : SendAttempt)
    (newId now : Nat) (toA fromA subj txt htm : String) (bId : Option String)
    (queue : List QueueItem) : List QueueItem :=
  if transporterConfigured = false then queue
  else
    match raceWithTimeout10s a with
    | Except.ok _ => queue
    | Except.error _ => enqueueEmail newId now toA fromA subj txt htm bId queue

/-! ## The queue processor (`part_003` lines 1550-1602, `processEmailQueue`) -/

/-- `EmailQueue.deleteOne({ _id: item._id })`: remove the first document
with the given id (Mongo ids are unique, so at most one exists). -/
def deleteById (i : Nat) : List QueueItem → List QueueItem
  | [] => []
  | q :: qs => if q.id = i then qs else q :: deleteById i qs

/-- `item.save()` on a fetched document: replace the stored document that
has the same id with the mutated snapshot. -/
def saveItem (it : QueueItem) : List QueueItem → List QueueItem
  | [] => []
  | q :: qs => if q.id = it.id then it :: qs else q :: saveItem it qs

/-- The batch selection of `part_003` line 1558:
`EmailQueue.find({ nextAttemptAt: { $lte: now } }).sort({ createdAt: 1 }).limit(10)`.
The sort is modelled with a stable sort on `createdAt`. -/
def dueItems (now : Nat) (queue : List QueueItem) : List QueueItem :=
  ((queue.filter (fun i => i.nextAttemptAt ≤ now)).insertionSort
    (fun a b => a.createdAt ≤ b.createdAt)).take 10

/-- The processing loop of `part_003` lines 1562-1599.  `transporterAt k`
is the result of the k-th `setupMailTransporter()` call of the pass (the
loop calls it once per item and aborts the pass with `break` when it
returns null); `attempt i` is the underlying send for item `i`; `tfail i`
is the value of `Date.now()` when the failure branch for `i` runs.
Returns the updated collection and the `processed` counter. -/
def processLoop (transporterAt : Nat → Bool) (attempt : QueueItem → SendAttempt)
    (tfail : QueueItem → Nat) :
    List QueueItem → Nat → List QueueItem → Nat → List QueueItem × Nat
  | [], _, queue, processed => (queue, processed)
  | item :: rest, k, queue, processed =>
    if transporterAt k = false then (queue, processed)
    else
      match raceWithTimeout10s (attempt item) with
      | Except.ok _ =>
          processLoop transporterAt attempt tfail rest (k + 1)
            (deleteById item.id queue) (processed + 1)
      | Except.error e =>
          processLoop transporterAt attempt tfail rest (k + 1)
            (saveItem (failUpdate (tfail item) e item) queue) processed

/-- `processEmailQueue`, `part_003` lines 1550-1602: return 0 at once when
the database connection is not established (`readyState !== 1`); otherwise
select the due batch and run the loop.  (The early return at line 1559 for
an empty batch coincides with running the loop on the empty list.) -/
def processEmailQueue (dbConnected : Bool) (transporterAt : Nat → Bool)
    (attempt : QueueItem → SendAttempt) (tfail : QueueItem → Nat)
    (now : Nat) (queue : List QueueItem) : List QueueItem × Nat :=
  if dbConnected = false then (queue, 0)
  else processLoop transporterAt attempt tfail (dueItems now queue) 0 queue 0

/-- Number of documents in the collection carrying a given id (Mongo ids
are unique, so a well-formed collection gives 0 or 1). -/
def idCount (n : Nat) (q : List QueueItem) : Nat :=
  q.countP (fun x => x.id = n)

/-! ## Push subscription store (`part_003` lines 770-823 and 915-928;
`src/server.js` lines 688-730 and 821-833)

A stored record `{ subscription, email, role, createdAt }` as written by the
subscribe endpoint of `part_003` (the `server.js` revision stores the same
shape without the `email` field). -/

structure PushSubscription where
  endpoint : String
  keys : String
deriving DecidableEq, Repr

structure PushRecord where
  subscription : PushSubscription
  email : String
  role : String
  createdAt : String
deriving DecidableEq, Repr

/-- The subscribe endpoint body, `part_003` lines 922-925: look up an
existing record by endpoint; only when none exists, append the new record
and write the store.  Returns the new store and whether a write happened. -/
def subscribeStep (sub : PushSubscription) (email role createdAt : String)
    (list : List PushRecord) : List PushRecord × Bool :=
  if (list.find? (fun s => s.subscription.endpoint = sub.endpoint)).isSome
  then (list, false)
  else (list ++ [⟨sub, email, role, createdAt⟩], true)

/-- Number of stored records carrying a given endpoint. -/
def endpointCount (ep : String) (list : List PushRecord) : Nat :=
  list.countP (fun s => s.subscription.endpoint = ep)

/-- The uniqueness invariant of the store: at most one record per endpoint. -/
def endpointUnique (list : List PushRecord) : Prop :=
  ∀ ep, endpointCount ep list ≤ 1

/-- Outcome of one `webpush.sendNotification` call: success, or a rejection
carrying an optional `statusCode` (absent or falsy modelled as `none`). -/
inductive PushSendResult where
  | ok : PushSendResult
  | fail : Option Nat → PushSendResult
deriving DecidableEq, Repr

/-- The permanent-invalid classification of `part_003` lines 805-806 and
`server.js` lines 717-718: a rejection whose `statusCode` is 410 or 404. -/
def isGone : PushSendResult → Bool
  | PushSendResult.fail (some c) => c = 410 ∨ c = 404
  | _ => false

/-- Whether one dispatch pass marks record `s` for removal: it matched the
filter (so a send was attempted) and the send reported a gone status. -/
def pruned (filterFn : PushRecord → Bool) (outcome : PushRecord → PushSendResult)
    (s : PushRecord) : Bool :=
  filterFn s && isGone (outcome s)

/-- The dispatch pass `sendPushTo`, `part_003` lines 788-813 (identical in
`server.js` lines 700-725): iterate the snapshot, attempt a send for every
record matching the filter, collect gone-status failures in `toRemove`,
and after the full iteration perform a single `writePushSubs` with the
pruned list — only when `toRemove` is non-empty.  `outcome s` is the push
service response for record `s`.  Returns the resulting store and the
number of store writes performed. -/
def sendPushTo (filterFn : PushRecord → Bool) (outcome : PushRecord → PushSendResult)
    (subs : List PushRecord) : List PushRecord × Nat :=
  let toRemove := subs.filter (pruned filterFn outcome)
  if toRemove.isEmpty then (subs, 0)
  else (subs.filter (fun s => !(pruned filterFn outcome s)), 1)

/-- The records a dispatch pass attempts to send to: exactly the members of
the snapshot accepted by the filter (`part_003` line 793). -/
def attemptedSubs (filterFn : PushRecord → Bool) (subs : List PushRecord) :
    List PushRecord := subs.filter filterFn

/-! ## SSE registry (`part_003` lines 846-869; `server.js` lines 753-776)

Client metadata as stored by the stream-open endpoint of `part_003`
(line 886): `{ role, email, bookingId }`.  A connection is identified by an
abstract handle (a natural number).  The two send functions are modelled by
the list of (connection, event, payload) frames they write. -/

structure SseMeta where
  role : String
  email : String
  bookingId : String
deriving DecidableEq, Repr

/-- `broadcastSse`, writing the event to every registered client. -/
def broadcastSse (event payload : String) (clients : List (Nat × SseMeta)) :
    List (Nat × String × String) :=
  clients.map (fun p => (p.1, event, payload))

/-- `sendSseTo`, writing the event to exactly the clients whose metadata
satisfies the filter. -/
def sendSseTo (filterFn : SseMeta → Bool) (event payload : String)
    (clients : List (Nat × SseMeta)) : List (Nat × String × String) :=
  (clients.filter (fun p => filterFn p.2)).map (fun p => (p.1, event, payload))

/-! ## Booking-creation handler (`src/server.js` lines 836-932)

The request body fields the handler reads, the booking it builds, and its
HTTP response.  The `_meta` request-tracing block (ip, forwarded-for, host,
origin, user agent) is carried opaquely as one field.  The outcomes of the
three delivery channels are passed in explicitly: the SSE broadcast runs in
its own try/catch, the push dispatch promise gets a `.catch`, and the email
attempt runs in a caught async block, so each outcome can only reach the
log, never the response. -/

/-- The `String.prototype.trim()` call applied to the required fields at
`server.js` lines 848-850: strip leading and trailing whitespace. -/
def trimJs (s : String) : String :=
  String.mk (((s.data.dropWhile Char.isWhitespace).reverse.dropWhile
    Char.isWhitespace).reverse)

structure BookingReq where
  name : String
  phone : String
  pickup : String
  destination : String
  serviceType : String
  date : String
  time : String
  estimatedPrice : String
deriving DecidableEq, Repr

structure Booking where
  id : String
  name : String
  phone : String
  pickup : String
  destination : String
  serviceType : String
  date : String
  time : String
  estimatedPrice : String
  status : String
  createdAt : String
  updatedAt : String
  meta : String
deriving DecidableEq, Repr

inductive HandlerResponse where
  | badRequest : String → HandlerResponse
  | serverError : String → HandlerResponse
  | created : Booking → HandlerResponse
deriving DecidableEq, Repr

/-- The booking object built at `server.js` lines 858-879. -/
def mkBooking (d : BookingReq) (newId nowIso reqMeta : String) : Booking :=
  { id := newId
    name := d.name
    phone := d.phone
    pickup := d.pickup
    destination := d.destination
    serviceType := d.serviceType
    date := d.date
    time := d.time
    estimatedPrice := d.estimatedPrice
    status := "pending"
    createdAt := nowIso
    updatedAt := nowIso
    meta := reqMeta }

/-- The log line a caught channel failure produces (`console.warn` in the
catch blocks at `server.js` lines 893, 898-899, 920-925). -/
def channelLog (tag : String) : Except String Unit → List String
  | Except.ok _ => []
  | Except.error e => [tag ++ e]

/-- `POST /api/bookings`, `server.js` lines 836-932: reject a missing or
non-object body; reject blank (after trim) name, pickup or destination;
answer 500 when persisting the booking list throws; otherwise fire the
three delivery channels — each failure caught and logged — and answer 201
with the created booking.  Returns the response together with the warn-log
lines of the three channels. -/
def createBookingHandler (data : Option BookingReq) (persistOk : Bool)
    (sseOutcome pushOutcome emailOutcome : Except String Unit)
    (newId nowIso reqMeta : String) : HandlerResponse × List String :=
  match data with
  | none => (HandlerResponse.badRequest "Invalid booking payload", [])
  | some d =>
    if trimJs d.name = "" ∨ trimJs d.pickup = "" ∨ trimJs d.destination = "" then
      (HandlerResponse.badRequest
        "Missing required booking fields: name, pickup and destination are required", [])
    else if persistOk = false then
      (HandlerResponse.serverError "Failed to persist booking", [])
    else
      (HandlerResponse.created (mkBooking d newId nowIso reqMeta),
        channelLog "[sse] booking-created broadcast failed " sseOutcome ++
        channelLog "[push] admin notify failed " pushOutcome ++
        channelLog "[email] admin notify flow failed " emailOutcome)

/-! ## Queue-processor scheduling (`part_003` lines 1604-1607)

Modelled from the source registration
`setInterval(() => { processEmailQueue().catch(...) }, 30 * 1000)` under
the standard interval-timer semantics: tick k fires at wall-clock time
`30000 * (k+1)` and starts a processor pass immediately, without awaiting
the previous pass (the code installs no busy flag), so pass k occupies the
real-time interval from its start until its start plus its duration. -/

def tickIntervalMs : Nat := 30 * 1000

/-- Start time of the pass launched by the k-th timer tick. -/
def passStart (k : Nat) : Nat := tickIntervalMs * (k + 1)

/-- End time of pass k, given the duration of each pass. -/
def passEnd (dur : Nat → Nat) (k : Nat) : Nat := passStart k + dur k

/-- Two passes overlap when the later one starts before the earlier one
has ended. -/
def passesOverlap (dur : Nat → Nat) (j k : Nat) : Prop :=
  j < k ∧ passStart k < passEnd dur j

instance (dur : Nat → Nat) (j k : Nat) : Decidable (passesOverlap dur j k) := by
  unfold passesOverlap; infer_instance

/-! ## Basic facts about the backoff computation -/

theorem backoffMs_pos (attempts : Nat) : 0 < backoffMs attempts := by
  unfold backoffMs baseDelayMs capMs
  refine lt_min ?_ (by norm_num)
  have : 0 < 2 ^ attempts := Nat.pos_pow_of_pos attempts (by norm_num)
  positivity

/-- C1: when a send attempt for a retry-queue item fails during a
processQueue pass, the failure branch increments the attempts counter by
exactly one and sets nextAttemptAt to the current time plus
min(60s * 2^attempts, 24h), computed from the already-incremented attempts
value; and since an item is only processed once it is due
(nextAttemptAt ≤ now), the new nextAttemptAt is strictly larger than the
old one, so across consecutive failures of one item nextAttemptAt never
decreases and in fact strictly increases, the delay itself capped at 24h. -/
theorem backoff_step_monotone (item : QueueItem) (now : Nat) (e : String)
    (hdue : item.nextAttemptAt ≤ now) :
    (failUpdate now e item).attempts = item.attempts + 1 ∧
    (failUpdate now e item).nextAttemptAt
      = now + min (60 * 1000 * 2 ^ (item.attempts + 1)) (24 * 3600 * 1000) ∧
    item.nextAttemptAt < (failUpdate now e item).nextAttemptAt := by
  refine ⟨rfl, rfl, ?_⟩
  have hpos : 0 < backoffMs (item.attempts + 1) := backoffMs_pos _
  have : (failUpdate now e item).nextAttemptAt = now + backoffMs (item.attempts + 1) := rfl
  omega

/-- Witness for C1 at a concrete item that is due at time 700000. -/
theorem backoff_step_monotone_witness :
    (⟨7, "a@x", "q@x", "s", "t", "h", 3, 600000, 0, none, none⟩ : QueueItem).nextAttemptAt
        ≤ 700000 ∧
    ((failUpdate 700000 "boom" ⟨7, "a@x", "q@x", "s", "t", "h", 3, 600000, 0, none, none⟩).attempts
        = 3 + 1 ∧
      (failUpdate 700000 "boom" ⟨7, "a@x", "q@x", "s", "t", "h", 3, 600000, 0, none, none⟩).nextAttemptAt
        = 700000 + min (60 * 1000 * 2 ^ (3 + 1)) (24 * 3600 * 1000) ∧
      (⟨7, "a@x", "q@x", "s", "t", "h", 3, 600000, 0, none, none⟩ : QueueItem).nextAttemptAt
        < (failUpdate 700000 "boom" ⟨7, "a@x", "q@x", "s", "t", "h", 3, 600000, 0, none, none⟩).nextAttemptAt) :=
  ⟨by decide,
    backoff_step_monotone ⟨7, "a@x", "q@x", "s", "t", "h", 3, 600000, 0, none, none⟩
      700000 "boom" (by decide)⟩

/-- C7: with a registry holding one connection whose metadata carries the
operator role (the role string "admin" in the code) and one connection
whose metadata carries only an owner identity, sendSseTo with the
role-equals-operator predicate writes the event to the first connection
only, while broadcastSse writes it to both. -/
theorem sse_targeted_delivery (c1 c2 : Nat) (idA ev pl : String) :
    sendSseTo (fun m => m.role = "admin") ev pl
        [(c1, ⟨"admin", "", ""⟩), (c2, ⟨"", idA, ""⟩)] = [(c1, ev, pl)] ∧
    broadcastSse ev pl [(c1, ⟨"admin", "", ""⟩), (c2, ⟨"", idA, ""⟩)]
      = [(c1, ev, pl), (c2, ev, pl)] := by
  constructor
  · simp [sendSseTo, List.filter]
  · rfl

/-! ## Subscription-store uniqueness (C5) -/

theorem endpointCount_pos_iff (ep : String) (l : List PushRecord) :
    0 < endpointCount ep l
      ↔ (l.find? (fun s => s.subscription.endpoint = ep)).isSome := by
  rw [endpointCount, List.countP_pos_iff, List.find?_isSome]

/-- A subscribe call whose endpoint is already stored changes nothing. -/
theorem subscribeStep_noop (sub : PushSubscription) (e r t : String)
    (st : List PushRecord) (h : 0 < endpointCount sub.endpoint st) :
    subscribeStep sub e r t st = (st, false) := by
  rw [subscribeStep, if_pos ((endpointCount_pos_iff _ _).mp h)]

/-- After a subscribe call, at least one record with its endpoint exists. -/
theorem subscribeStep_count_pos (sub : PushSubscription) (e r t : String)
    (st : List PushRecord) :
    0 < endpointCount sub.endpoint (subscribeStep sub e r t st).1 := by
  rw [subscribeStep]
  by_cases h : (st.find? (fun s => s.subscription.endpoint = sub.endpoint)).isSome
  · rw [if_pos h]
    exact (endpointCount_pos_iff _ _).mpr h
  · rw [if_neg h]
    simp only [endpointCount, List.countP_append]
    have : (List.countP (fun s => decide (s.subscription.endpoint = sub.endpoint))
        [(⟨sub, e, r, t⟩ : PushRecord)]) = 1 := by simp
    omega

/-- Subscribe preserves the at-most-one-record-per-endpoint invariant. -/
theorem subscribeStep_unique (sub : PushSubscription) (e r t : String)
    (st : List PushRecord) (hinv : endpointUnique st) :
    endpointUnique (subscribeStep sub e r t st).1 := by
  intro ep
  rw [subscribeStep]
  by_cases h : (st.find? (fun s => s.subscription.endpoint = sub.endpoint)).isSome
  · rw [if_pos h]; exact hinv ep
  · rw [if_neg h]
    have hzero : endpointCount sub.endpoint st = 0 := by
      by_contra hne
      exact h ((endpointCount_pos_iff _ _).mp (Nat.pos_of_ne_zero hne))
    by_cases hep : ep = sub.endpoint
    · subst hep
      simp only [endpointCount, List.countP_append] at hzero ⊢
      have hone : (List.countP (fun s => decide (s.subscription.endpoint = sub.endpoint))
          [(⟨sub, e, r, t⟩ : PushRecord)]) ≤ 1 := by
        simp [List.countP_cons]
      omega
    · have h2 := hinv ep
      simp only [endpointCount, List.countP_append] at h2 ⊢
      have hz : (List.countP (fun s => decide (s.subscription.endpoint = ep))
          [(⟨sub, e, r, t⟩ : PushRecord)]) = 0 := by
        simp only [List.countP_cons, List.countP_nil]
        have hne : ¬((⟨sub, e, r, t⟩ : PushRecord).subscription.endpoint = ep) :=
          fun hx => hep hx.symm
        simp [hne]
      omega

/-- C5 counterexample: subscribing endpoint "ep" and then subscribing the
same endpoint again with different keys, email and role leaves the FIRST
record in the store unchanged — the repeated call is skipped entirely
(`if(!exists)` in the handler), it does not update the stored record. -/
theorem subscribe_second_call_not_update :
    (subscribeStep ⟨"ep", "k2"⟩ "a@x" "user" "t1"
        (subscribeStep ⟨"ep", "k1"⟩ "" "admin" "t0" []).1).1
      = [⟨⟨"ep", "k1"⟩, "", "admin", "t0"⟩] ∧
    (⟨⟨"ep", "k1"⟩, "", "admin", "t0"⟩ : PushRecord)
      ≠ ⟨⟨"ep", "k2"⟩, "a@x", "user", "t1"⟩ := by
  constructor
  · rfl
  · decide

/-- C5 (amended): on a store satisfying the uniqueness invariant, two
consecutive subscribe calls with the same endpoint leave exactly one record
with that endpoint, the invariant is preserved after every call, and the
second call is a no-op — it leaves the store exactly as it was after the
first call (it neither duplicates nor updates the stored record). -/
theorem subscribe_idempotent (st : List PushRecord) (sub1 sub2 : PushSubscription)
    (e1 r1 t1 e2 r2 t2 : String)
    (hinv : endpointUnique st) (hep : sub2.endpoint = sub1.endpoint) :
    endpointUnique (subscribeStep sub1 e1 r1 t1 st).1 ∧
    (subscribeStep sub2 e2 r2 t2 (subscribeStep sub1 e1 r1 t1 st).1)
      = ((subscribeStep sub1 e1 r1 t1 st).1, false) ∧
    endpointCount sub1.endpoint
      (subscribeStep sub2 e2 r2 t2 (subscribeStep sub1 e1 r1 t1 st).1).1 = 1 := by
  have hu1 : endpointUnique (subscribeStep sub1 e1 r1 t1 st).1 :=
    subscribeStep_unique sub1 e1 r1 t1 st hinv
  have hpos : 0 < endpointCount sub2.endpoint (subscribeStep sub1 e1 r1 t1 st).1 := by
    rw [hep]; exact subscribeStep_count_pos sub1 e1 r1 t1 st
  have hnoop := subscribeStep_noop sub2 e2 r2 t2 (subscribeStep sub1 e1 r1 t1 st).1 hpos
  refine ⟨hu1, hnoop, ?_⟩
  have hres : (subscribeStep sub2 e2 r2 t2 (subscribeStep sub1 e1 r1 t1 st).1).1
      = (subscribeStep sub1 e1 r1 t1 st).1 := by rw [hnoop]
  rw [hres]
  have hle := hu1 sub1.endpoint
  have hpos1 := subscribeStep_count_pos sub1 e1 r1 t1 st
  omega

/-- Witness for C5 (amended) on a concrete store already holding one
record for the endpoint. -/
theorem subscribe_idempotent_witness :
    endpointUnique [(⟨⟨"other", "ko"⟩, "", "", "t"⟩ : PushRecord)] ∧
    (endpointUnique (subscribeStep ⟨"ep", "k1"⟩ "e1" "admin" "t0"
        [(⟨⟨"other", "ko"⟩, "", "", "t"⟩ : PushRecord)]).1 ∧
      (subscribeStep ⟨"ep", "k2"⟩ "e2" "user" "t1"
          (subscribeStep ⟨"ep", "k1"⟩ "e1" "admin" "t0"
            [(⟨⟨"other", "ko"⟩, "", "", "t"⟩ : PushRecord)]).1)
        = ((subscribeStep ⟨"ep", "k1"⟩ "e1" "admin" "t0"
            [(⟨⟨"other", "ko"⟩, "", "", "t"⟩ : PushRecord)]).1, false) ∧
      endpointCount (PushSubscription.mk "ep" "k1").endpoint
        (subscribeStep ⟨"ep", "k2"⟩ "e2" "user" "t1"
          (subscribeStep ⟨"ep", "k1"⟩ "e1" "admin" "t0"
            [(⟨⟨"other", "ko"⟩, "", "", "t"⟩ : PushRecord)]).1).1 = 1) := by
  constructor
  · intro ep
    have : endpointCount ep [(⟨⟨"other", "ko"⟩, "", "", "t"⟩ : PushRecord)]
        = if "other" = ep then 1 else 0 := by
      simp [endpointCount, List.countP_cons]
    rw [this]
    split <;> omega
  · refine subscribe_idempotent _ ⟨"ep", "k1"⟩ ⟨"ep", "k2"⟩ "e1" "admin" "t0" "e2" "user" "t1" ?_ rfl
    intro ep
    have : endpointCount ep [(⟨⟨"other", "ko"⟩, "", "", "t"⟩ : PushRecord)]
        = if "other" = ep then 1 else 0 := by
      simp [endpointCount, List.countP_cons]
    rw [this]
    split <;> omega

/-! ## Booking handler response independence (C6) -/

/-- C6: for a booking-creation request that passes validation and whose
booking is persisted, the handler answers 201 with the created booking, and
any two runs differing only in the outcomes of the SSE broadcast, the push
dispatch and the email attempt produce the identical response (the channel
outcomes can reach the warn log, never the response). -/
theorem booking_response_independent (d : BookingReq) (persistOk : Bool)
    (o1 o2 o3 p1 p2 p3 : Except String Unit) (newId nowIso reqMeta : String)
    (hname : trimJs d.name ≠ "") (hpickup : trimJs d.pickup ≠ "")
    (hdest : trimJs d.destination ≠ "") (hpersist : persistOk = true) :
    (createBookingHandler (some d) persistOk o1 o2 o3 newId nowIso reqMeta).1
      = HandlerResponse.created (mkBooking d newId nowIso reqMeta) ∧
    (createBookingHandler (some d) persistOk o1 o2 o3 newId nowIso reqMeta).1
      = (createBookingHandler (some d) persistOk p1 p2 p3 newId nowIso reqMeta).1 := by
  subst hpersist
  constructor <;>
    simp [createBookingHandler, hname, hpickup, hdest]

/-- Witness for C6: a concrete valid request, with all three channels
failing in one run and all three succeeding in the other. -/
theorem booking_response_independent_witness :
    (trimJs "Alice" ≠ "" ∧ trimJs "Plot 5" ≠ "" ∧ trimJs "Airport" ≠ "" ∧ (true = true)) ∧
    ((createBookingHandler (some ⟨"Alice", "0700", "Plot 5", "Airport", "", "", "", ""⟩)
        true (Except.error "sse down") (Except.error "push down") (Except.error "smtp down")
        "1730000000000" "2026-10-11T00:00:00.000Z" "m").1
      = HandlerResponse.created
          (mkBooking ⟨"Alice", "0700", "Plot 5", "Airport", "", "", "", ""⟩
            "1730000000000" "2026-10-11T00:00:00.000Z" "m") ∧
     (createBookingHandler (some ⟨"Alice", "0700", "Plot 5", "Airport", "", "", "", ""⟩)
        true (Except.error "sse down") (Except.error "push down") (Except.error "smtp down")
        "1730000000000" "2026-10-11T00:00:00.000Z" "m").1
      = (createBookingHandler (some ⟨"Alice", "0700", "Plot 5", "Airport", "", "", "", ""⟩)
          true (Except.ok ()) (Except.ok ()) (Except.ok ())
          "1730000000000" "2026-10-11T00:00:00.000Z" "m").1) :=
  ⟨⟨by decide, by decide, by decide, rfl⟩,
    booking_response_independent
      ⟨"Alice", "0700", "Plot 5", "Airport", "", "", "", ""⟩ true
      (Except.error "sse down") (Except.error "push down") (Except.error "smtp down")
      (Except.ok ()) (Except.ok ()) (Except.ok ())
      "1730000000000" "2026-10-11T00:00:00.000Z" "m"
      (by decide) (by decide) (by decide) rfl⟩

/-! ## Email timeout guard (C8) -/

/-- C8 counterexample: the direct `sendEmail` helper of `src/server.js`
awaits `transporter.sendMail` with no `Promise.race` timeout, so a send
that only settles after 20000 ms — beyond the 10-second mark — is NOT
treated as a failure: its eventual success is returned, and nothing is
enqueued.  Hence not every outbound email send is raced against the
10-second timeout. -/
theorem sendEmail_slow_send_not_failed :
    10000 < 20000 ∧
    sendEmailServerJs "ops@x" "subj" true ⟨20000, Except.ok "mid-1"⟩ = some "mid-1" := by
  constructor
  · decide
  · rfl

/-- C8 (amended): in the queue-bearing revision (`part_003`) every email
send — the direct booking-event attempt and each queue-processor send — is
raced against the fixed 10-second timeout: a send that has not settled
after 10000 ms yields the timeout error, the direct attempt then enqueues
the message (fallback path), and the queue processor routes the item
through the backoff update instead of deleting it.  The `server.js`
revision is the exception recorded by the counterexample. -/
theorem email_timeout_guard (a : SendAttempt) (item : QueueItem)
    (tf : QueueItem → Nat) (newId now now2 : Nat)
    (toA fromA subj txt htm : String) (bId : Option String)
    (queue : List QueueItem)
    (hslow : 10000 ≤ a.duration) (hdue : item.nextAttemptAt ≤ now2) :
    raceWithTimeout10s a = Except.error "Email send timeout (10s)" ∧
    sendAdminEmailStep true a newId now toA fromA subj txt htm bId queue
      = enqueueEmail newId now toA fromA subj txt htm bId queue ∧
    processEmailQueue true (fun _ => true) (fun _ => a) tf now2 [item]
      = ([failUpdate (tf item) "Email send timeout (10s)" item], 0) := by
  have hrace : raceWithTimeout10s a = Except.error "Email send timeout (10s)" := by
    rw [raceWithTimeout10s, if_pos hslow]
  refine ⟨hrace, ?_, ?_⟩
  · rw [sendAdminEmailStep]
    simp [hrace]
  · have hdueList : dueItems now2 [item] = [item] := by
      simp [dueItems, List.filter, hdue, List.insertionSort, List.orderedInsert]
    rw [processEmailQueue, if_neg (by simp), hdueList, processLoop]
    simp only [hrace]
    rw [if_neg (by simp)]
    have hid : (failUpdate (tf item) "Email send timeout (10s)" item).id = item.id := rfl
    simp [processLoop, saveItem, hid]

/-- Witness for C8 (amended) at a concrete slow send and a due item. -/
theorem email_timeout_guard_witness :
    10000 ≤ (⟨25000, Except.ok "late"⟩ : SendAttempt).duration ∧
    (⟨3, "a@x", "q@x", "s", "t", "h", 0, 100, 100, none, none⟩ : QueueItem).nextAttemptAt ≤ 500 ∧
    (raceWithTimeout10s ⟨25000, Except.ok "late"⟩
        = Except.error "Email send timeout (10s)" ∧
      sendAdminEmailStep true ⟨25000, Except.ok "late"⟩ 9 400 "ops@x" "nr@x" "s2" "t2" "h2" none []
        = enqueueEmail 9 400 "ops@x" "nr@x" "s2" "t2" "h2" none [] ∧
      processEmailQueue true (fun _ => true) (fun _ => ⟨25000, Except.ok "late"⟩)
          (fun _ => 600) 500 [⟨3, "a@x", "q@x", "s", "t", "h", 0, 100, 100, none, none⟩]
        = ([failUpdate 600 "Email send timeout (10s)"
            ⟨3, "a@x", "q@x", "s", "t", "h", 0, 100, 100, none, none⟩], 0)) :=
  ⟨by decide, by decide,
    email_timeout_guard ⟨25000, Except.ok "late"⟩
      ⟨3, "a@x", "q@x", "s", "t", "h", 0, 100, 100, none, none⟩
      (fun _ => 600) 9 400 500 "ops@x" "nr@x" "s2" "t2" "h2" none []
      (by decide) (by decide)⟩

/-! ## Queue-processor scheduling (C9) -/

/-- C9 counterexample: the registration installs no busy flag, so with a
pass duration of 40000 ms — reachable, since one pass may run up to ten
sends each bounded only by the 10-second timeout — the pass started by
tick 0 is still running when tick 1 fires 30 seconds later: two
queue-processing passes overlap in time. -/
theorem interval_passes_can_overlap :
    passesOverlap (fun _ => 40000) 0 1 := by decide

/-- C9 (amended): the queue processor is driven by a single timer on a
fixed 30-second interval (consecutive ticks are exactly tickIntervalMs
apart), but nothing prevents overlapping passes: pass j overlaps a later
pass k exactly when the duration of pass j exceeds the 30-second tick gap
separating them. -/
theorem interval_overlap_iff (dur : Nat → Nat) (j k : Nat) (h : j < k) :
    passStart (j + 1) - passStart j = tickIntervalMs ∧
    (passesOverlap dur j k ↔ tickIntervalMs * (k - j) < dur j) := by
  constructor
  · simp only [passStart, tickIntervalMs]
    omega
  · simp only [passesOverlap, passStart, passEnd, tickIntervalMs]
    omega

/-- Witness for C9 (amended): ticks 0 and 1 with a 40-second pass. -/
theorem interval_overlap_iff_witness :
    0 < 1 ∧
    (passStart (0 + 1) - passStart 0 = tickIntervalMs ∧
      (passesOverlap (fun _ => 40000) 0 1 ↔ tickIntervalMs * (1 - 0) < 40000)) :=
  ⟨by decide, interval_overlap_iff (fun _ => 40000) 0 1 (by decide)⟩

/-! ## Push dispatch pruning (C2) -/

/-- The store a dispatch pass leaves behind only ever shrinks. -/
theorem sendPushTo_subset (filterFn : PushRecord → Bool)
    (outcome : PushRecord → PushSendResult) (subs : List PushRecord) :
    (sendPushTo filterFn outcome subs).1 ⊆ subs := by
  rw [sendPushTo]
  by_cases h : (subs.filter (pruned filterFn outcome)).isEmpty
  · rw [if_pos h]
    exact fun x hx => hx
  · rw [if_neg h]
    exact (List.filter_sublist subs).subset

/-- C2: in a push-dispatch pass, a subscription whose send fails with
statusCode 410 or 404 is removed by the single batch write performed after
the full iteration, and no later pass (over the resulting store) targets
it again; a subscription whose send outcome is not a permanent-invalid
failure — in particular one failing with any other error — keeps its
stored record unchanged.  The pass performs at most one store write, and
exactly one when a matching subscription reported a gone status. -/
theorem push_dispatch_prune (filterFn : PushRecord → Bool)
    (outcome : PushRecord → PushSendResult) (subs : List PushRecord)
    (s : PushRecord) (hs : s ∈ subs) :
    (sendPushTo filterFn outcome subs).2 ≤ 1 ∧
    (filterFn s = true → isGone (outcome s) = true →
      (sendPushTo filterFn outcome subs).2 = 1 ∧
      s ∉ (sendPushTo filterFn outcome subs).1 ∧
      (∀ f2 : PushRecord → Bool,
        s ∉ attemptedSubs f2 (sendPushTo filterFn outcome subs).1) ∧
      (∀ (f2 : PushRecord → Bool) (o2 : PushRecord → PushSendResult),
        s ∉ (sendPushTo f2 o2 (sendPushTo filterFn outcome subs).1).1)) ∧
    (isGone (outcome s) = false →
      (sendPushTo filterFn outcome subs).1.count s = subs.count s ∧
      s ∈ (sendPushTo filterFn outcome subs).1) := by
  refine ⟨?_, ?_, ?_⟩
  · rw [sendPushTo]
    by_cases h : (subs.filter (pruned filterFn outcome)).isEmpty
    · rw [if_pos h]
      exact Nat.zero_le 1
    · rw [if_neg h]
  · intro hfil hgone
    have hp : pruned filterFn outcome s = true := by
      simp [pruned, hfil, hgone]
    have hmem : s ∈ subs.filter (pruned filterFn outcome) :=
      List.mem_filter.mpr ⟨hs, hp⟩
    have hne : ¬((subs.filter (pruned filterFn outcome)).isEmpty = true) := by
      rw [List.isEmpty_iff]
      exact List.ne_nil_of_mem hmem
    have hres : sendPushTo filterFn outcome subs
        = (subs.filter (fun x => !(pruned filterFn outcome x)), 1) := by
      rw [sendPushTo, if_neg hne]
    have hnotmem : s ∉ (sendPushTo filterFn outcome subs).1 := by
      rw [hres]
      intro hc
      have := (List.mem_filter.mp hc).2
      simp [hp] at this
    refine ⟨by rw [hres], hnotmem, ?_, ?_⟩
    · intro f2 hc
      exact hnotmem ((List.filter_sublist _).subset hc)
    · intro f2 o2 hc
      exact hnotmem (sendPushTo_subset f2 o2 _ hc)
  · intro hgone
    have hp : pruned filterFn outcome s = false := by
      simp [pruned, hgone]
    rw [sendPushTo]
    by_cases h : (subs.filter (pruned filterFn outcome)).isEmpty
    · rw [if_pos h]
      exact ⟨rfl, hs⟩
    · rw [if_neg h]
      constructor
      · exact List.count_filter (by simp [hp])
      · exact List.mem_filter.mpr ⟨hs, by simp [hp]⟩

/-- Witness for C2: a pass over three stored records — one matching record
whose send reports 410, one matching record failing with 500, one record
not matching the filter — applied at the gone record. -/
theorem push_dispatch_prune_witness :
    (⟨⟨"e1", "k1"⟩, "", "admin", "t"⟩ : PushRecord)
        ∈ [(⟨⟨"e1", "k1"⟩, "", "admin", "t"⟩ : PushRecord),
           ⟨⟨"e2", "k2"⟩, "", "admin", "t"⟩, ⟨⟨"e3", "k3"⟩, "", "user", "t"⟩] ∧
    ((sendPushTo (fun r => r.role = "admin")
        (fun r => if r.subscription.endpoint = "e1"
          then PushSendResult.fail (some 410) else PushSendResult.fail (some 500))
        [(⟨⟨"e1", "k1"⟩, "", "admin", "t"⟩ : PushRecord),
           ⟨⟨"e2", "k2"⟩, "", "admin", "t"⟩, ⟨⟨"e3", "k3"⟩, "", "user", "t"⟩]).2 ≤ 1 ∧
     ((fun r : PushRecord => decide (r.role = "admin")) ⟨⟨"e1", "k1"⟩, "", "admin", "t"⟩ = true →
      isGone ((fun r : PushRecord => if r.subscription.endpoint = "e1"
          then PushSendResult.fail (some 410) else PushSendResult.fail (some 500))
          ⟨⟨"e1", "k1"⟩, "", "admin", "t"⟩) = true →
      (sendPushTo (fun r => r.role = "admin")
        (fun r => if r.subscription.endpoint = "e1"
          then PushSendResult.fail (some 410) else PushSendResult.fail (some 500))
        [(⟨⟨"e1", "k1"⟩, "", "admin", "t"⟩ : PushRecord),
           ⟨⟨"e2", "k2"⟩, "", "admin", "t"⟩, ⟨⟨"e3", "k3"⟩, "", "user", "t"⟩]).2 = 1 ∧
      (⟨⟨"e1", "k1"⟩, "", "admin", "t"⟩ : PushRecord)
        ∉ (sendPushTo (fun r => r.role = "admin")
        (fun r => if r.subscription.endpoint = "e1"
          then PushSendResult.fail (some 410) else PushSendResult.fail (some 500))
        [(⟨⟨"e1", "k1"⟩, "", "admin", "t"⟩ : PushRecord),
           ⟨⟨"e2", "k2"⟩, "", "admin", "t"⟩, ⟨⟨"e3", "k3"⟩, "", "user", "t"⟩]).1 ∧
      (∀ f2 : PushRecord → Bool,
        (⟨⟨"e1", "k1"⟩, "", "admin", "t"⟩ : PushRecord)
          ∉ attemptedSubs f2 (sendPushTo (fun r => r.role = "admin")
          (fun r => if r.subscription.endpoint = "e1"
            then PushSendResult.fail (some 410) else PushSendResult.fail (some 500))
          [(⟨⟨"e1", "k1"⟩, "", "admin", "t"⟩ : PushRecord),
             ⟨⟨"e2", "k2"⟩, "", "admin", "t"⟩, ⟨⟨"e3", "k3"⟩, "", "user", "t"⟩]).1) ∧
      (∀ (f2 : PushRecord → Bool) (o2 : PushRecord → PushSendResult),
        (⟨⟨"e1", "k1"⟩, "", "admin", "t"⟩ : PushRecord)
          ∉ (sendPushTo f2 o2 (sendPushTo (fun r => r.role = "admin")
          (fun r => if r.subscription.endpoint = "e1"
            then PushSendResult.fail (some 410) else PushSendResult.fail (some 500))
          [(⟨⟨"e1", "k1"⟩, "", "admin", "t"⟩ : PushRecord),
             ⟨⟨"e2", "k2"⟩, "", "admin", "t"⟩, ⟨⟨"e3", "k3"⟩, "", "user", "t"⟩]).1).1)) ∧
     (isGone ((fun r : PushRecord => if r.subscription.endpoint = "e1"
          then PushSendResult.fail (some 410) else PushSendResult.fail (some 500))
          ⟨⟨"e1", "k1"⟩, "", "admin", "t"⟩) = false →
      ((sendPushTo (fun r => r.role = "admin")
        (fun r => if r.subscription.endpoint = "e1"
          then PushSendResult.fail (some 410) else PushSendResult.fail (some 500))
        [(⟨⟨"e1", "k1"⟩, "", "admin", "t"⟩ : PushRecord),
           ⟨⟨"e2", "k2"⟩, "", "admin", "t"⟩, ⟨⟨"e3", "k3"⟩, "", "user", "t"⟩]).1.count
          ⟨⟨"e1", "k1"⟩, "", "admin", "t"⟩
        = [(⟨⟨"e1", "k1"⟩, "", "admin", "t"⟩ : PushRecord),
           ⟨⟨"e2", "k2"⟩, "", "admin", "t"⟩, ⟨⟨"e3", "k3"⟩, "", "user", "t"⟩].count
          ⟨⟨"e1", "k1"⟩, "", "admin", "t"⟩ ∧
       (⟨⟨"e1", "k1"⟩, "", "admin", "t"⟩ : PushRecord)
         ∈ (sendPushTo (fun r => r.role = "admin")
        (fun r => if r.subscription.endpoint = "e1"
          then PushSendResult.fail (some 410) else PushSendResult.fail (some 500))
        [(⟨⟨"e1", "k1"⟩, "", "admin", "t"⟩ : PushRecord),
           ⟨⟨"e2", "k2"⟩, "", "admin", "t"⟩, ⟨⟨"e3", "k3"⟩, "", "user", "t"⟩]).1))) :=
  ⟨by decide,
    push_dispatch_prune (fun r => r.role = "admin")
      (fun r => if r.subscription.endpoint = "e1"
        then PushSendResult.fail (some 410) else PushSendResult.fail (some 500))
      [(⟨⟨"e1", "k1"⟩, "", "admin", "t"⟩ : PushRecord),
         ⟨⟨"e2", "k2"⟩, "", "admin", "t"⟩, ⟨⟨"e3", "k3"⟩, "", "user", "t"⟩]
      ⟨⟨"e1", "k1"⟩, "", "admin", "t"⟩ (by decide)⟩

/-! ## Elementary facts about the queue store operations -/

theorem saveItem_length (it : QueueItem) (q : List QueueItem) :
    (saveItem it q).length = q.length := by
  induction q with
  | nil => rfl
  | cons a qs ih =>
    rw [saveItem]
    by_cases h : a.id = it.id
    · rw [if_pos h]
      simp
    · rw [if_neg h]
      simp [ih]

theorem saveItem_idCount (it : QueueItem) (n : Nat) (q : List QueueItem) :
    idCount n (saveItem it q) = idCount n q := by
  induction q with
  | nil => rfl
  | cons a qs ih =>
    rw [saveItem]
    by_cases h : a.id = it.id
    · rw [if_pos h]
      simp only [idCount, List.countP_cons, h]
    · rw [if_neg h]
      simp only [idCount, List.countP_cons] at ih ⊢
      rw [ih]

theorem saveItem_count_other (it x : QueueItem) (hx : x.id ≠ it.id)
    (q : List QueueItem) : (saveItem it q).count x = q.count x := by
  induction q with
  | nil => rfl
  | cons a qs ih =>
    rw [saveItem]
    by_cases h : a.id = it.id
    · rw [if_pos h]
      have h1 : ¬(it = x) := fun hc => hx (by rw [← hc])
      have h2 : ¬(a = x) := fun hc => hx (by rw [← hc]; exact h)
      simp [List.count_cons, h1, h2]
    · rw [if_neg h]
      simp [List.count_cons, ih]

theorem deleteById_idCount_self (i : Nat) (q : List QueueItem) :
    idCount i (deleteById i q) = idCount i q - 1 := by
  induction q with
  | nil => rfl
  | cons a qs ih =>
    rw [deleteById]
    by_cases ha : a.id = i
    · rw [if_pos ha]
      simp only [idCount, List.countP_cons]
      simp [ha]
    · rw [if_neg ha]
      simp only [idCount, List.countP_cons] at ih ⊢
      simp [ha, ih]

theorem deleteById_idCount_other (i n : Nat) (h : n ≠ i) (q : List QueueItem) :
    idCount n (deleteById i q) = idCount n q := by
  induction q with
  | nil => rfl
  | cons a qs ih =>
    rw [deleteById]
    by_cases ha : a.id = i
    · rw [if_pos ha]
      have hn : ¬(a.id = n) := by rw [ha]; exact fun hc => h hc.symm
      simp only [idCount, List.countP_cons]
      simp [hn]
    · rw [if_neg ha]
      simp only [idCount, List.countP_cons] at ih ⊢
      rw [ih]

theorem deleteById_count_other (i : Nat) (x : QueueItem) (hx : x.id ≠ i)
    (q : List QueueItem) : (deleteById i q).count x = q.count x := by
  induction q with
  | nil => rfl
  | cons a qs ih =>
    rw [deleteById]
    by_cases ha : a.id = i
    · rw [if_pos ha]
      have h2 : ¬(a = x) := fun hc => hx (by rw [← hc]; exact ha)
      simp [List.count_cons, h2]
    · rw [if_neg ha]
      simp [List.count_cons, ih]

theorem deleteById_length (i : Nat) (q : List QueueItem) (h : 0 < idCount i q) :
    (deleteById i q).length + 1 = q.length := by
  induction q with
  | nil => simp [idCount] at h
  | cons a qs ih =>
    rw [deleteById]
    by_cases ha : a.id = i
    · rw [if_pos ha]
      simp
    · rw [if_neg ha]
      have h2 : 0 < idCount i qs := by
        simp only [idCount, List.countP_cons] at h
        simp [ha] at h
        simpa [idCount] using h
      simp [ih h2]

theorem idCount_zero_of_fresh (n : Nat) (q : List QueueItem)
    (h : ∀ x ∈ q, x.id ≠ n) : idCount n q = 0 := by
  rw [idCount, List.countP_eq_zero]
  intro a ha
  simp [h a ha]

theorem idCount_one_of_nodup (q : List QueueItem) (x : QueueItem)
    (hnd : (q.map QueueItem.id).Nodup) (hx : x ∈ q) : idCount x.id q = 1 := by
  induction q with
  | nil => cases hx
  | cons a qs ih =>
    simp only [List.map_cons, List.nodup_cons] at hnd
    rcases List.mem_cons.mp hx with rfl | hxs
    · have hz : idCount x.id qs = 0 := by
        apply idCount_zero_of_fresh
        intro y hy hc
        exact hnd.1 (hc ▸ List.mem_map_of_mem QueueItem.id hy)
      simp only [idCount, List.countP_cons]
      simp only [idCount] at hz
      rw [hz]
      simp
    · have hne : ¬(a.id = x.id) := by
        intro hc
        exact hnd.1 (hc ▸ List.mem_map_of_mem QueueItem.id hxs)
      simp only [idCount, List.countP_cons]
      have := ih hnd.2 hxs
      simp only [idCount] at this
      simp [hne, this]

/-! ## Facts about the due-batch selection -/

instance : IsTotal QueueItem (fun a b => a.createdAt ≤ b.createdAt) :=
  ⟨fun a b => Nat.le_total a.createdAt b.createdAt⟩

instance : IsTrans QueueItem (fun a b => a.createdAt ≤ b.createdAt) :=
  ⟨fun _ _ _ hab hbc => Nat.le_trans hab hbc⟩

theorem dueItems_length_le (now : Nat) (queue : List QueueItem) :
    (dueItems now queue).length ≤ 10 := by
  rw [dueItems]
  exact List.length_take_le _ _

theorem dueItems_subset (now : Nat) (queue : List QueueItem) :
    ∀ i ∈ dueItems now queue, i.nextAttemptAt ≤ now ∧ i ∈ queue := by
  intro i hi
  rw [dueItems] at hi
  have h1 := (List.take_sublist _ _).subset hi
  have h2 := (List.perm_insertionSort
    (fun a b : QueueItem => a.createdAt ≤ b.createdAt) _).mem_iff.mp h1
  have h3 := List.mem_filter.mp h2
  exact ⟨by simpa using h3.2, h3.1⟩

theorem dueItems_sorted (now : Nat) (queue : List QueueItem) :
    List.Pairwise (fun a b : QueueItem => a.createdAt ≤ b.createdAt)
      (dueItems now queue) := by
  rw [dueItems]
  exact List.Pairwise.sublist (List.take_sublist _ _)
    (List.sorted_insertionSort _ _)

theorem dueItems_complete (now : Nat) (queue : List QueueItem) (x : QueueItem)
    (hx : x ∈ queue) (hdue : x.nextAttemptAt ≤ now)
    (hsmall : (queue.filter (fun i => i.nextAttemptAt ≤ now)).length ≤ 10) :
    x ∈ dueItems now queue := by
  rw [dueItems]
  have hlen : ((queue.filter (fun i => i.nextAttemptAt ≤ now)).insertionSort
      (fun a b => a.createdAt ≤ b.createdAt)).length ≤ 10 := by
    rw [List.length_insertionSort]
    exact hsmall
  rw [List.take_of_length_le hlen]
  exact (List.perm_insertionSort _ _).mem_iff.mpr
    (List.mem_filter.mpr ⟨hx, by simpa using hdue⟩)

theorem dueItems_ids_nodup (now : Nat) (queue : List QueueItem)
    (hnd : (queue.map QueueItem.id).Nodup) :
    ((dueItems now queue).map QueueItem.id).Nodup := by
  rw [dueItems]
  have h1 : ((queue.filter (fun i => i.nextAttemptAt ≤ now)).map QueueItem.id).Nodup :=
    List.Nodup.sublist ((List.filter_sublist queue).map QueueItem.id) hnd
  have h2 : (((queue.filter (fun i => i.nextAttemptAt ≤ now)).insertionSort
      (fun a b => a.createdAt ≤ b.createdAt)).map QueueItem.id).Nodup :=
    ((List.perm_insertionSort _ _).map QueueItem.id).nodup_iff.mpr h1
  exact List.Nodup.sublist ((List.take_sublist _ _).map QueueItem.id) h2

/-! ## Invariants of the processing loop -/

/-- A document whose id is named by no batch item is untouched by a pass:
its number of occurrences in the collection is preserved. -/
theorem processLoop_count_untouched (T : Nat → Bool) (A : QueueItem → SendAttempt)
    (tf : QueueItem → Nat) (items : List QueueItem) (x : QueueItem)
    (hx : ∀ i ∈ items, i.id ≠ x.id) :
    ∀ (k : Nat) (queue : List QueueItem) (p : Nat),
      (processLoop T A tf items k queue p).1.count x = queue.count x := by
  induction items with
  | nil => intro k queue p; rfl
  | cons item rest ih =>
    intro k queue p
    rw [processLoop]
    by_cases hT : T k = false
    · rw [if_pos hT]
    · rw [if_neg hT]
      have hid : item.id ≠ x.id := hx item (List.mem_cons_self _ _)
      have hrest : ∀ i ∈ rest, i.id ≠ x.id := fun i hi => hx i (List.mem_cons_of_mem _ hi)
      cases hr : raceWithTimeout10s (A item) with
      | ok v =>
        simp only [hr]
        rw [ih hrest, deleteById_count_other _ _ (Ne.symm hid)]
      | error e =>
        simp only [hr]
        rw [ih hrest, saveItem_count_other _ _
          (show x.id ≠ (failUpdate (tf item) e item).id from Ne.symm hid)]

/-- An id named by no batch item keeps its document count through a pass. -/
theorem processLoop_idCount_untouched (T : Nat → Bool) (A : QueueItem → SendAttempt)
    (tf : QueueItem → Nat) (items : List QueueItem) (n : Nat)
    (hn : ∀ i ∈ items, i.id ≠ n) :
    ∀ (k : Nat) (queue : List QueueItem) (p : Nat),
      idCount n (processLoop T A tf items k queue p).1 = idCount n queue := by
  induction items with
  | nil => intro k queue p; rfl
  | cons item rest ih =>
    intro k queue p
    rw [processLoop]
    by_cases hT : T k = false
    · rw [if_pos hT]
    · rw [if_neg hT]
      have hid : item.id ≠ n := hn item (List.mem_cons_self _ _)
      have hrest : ∀ i ∈ rest, i.id ≠ n := fun i hi => hn i (List.mem_cons_of_mem _ hi)
      cases hr : raceWithTimeout10s (A item) with
      | ok v =>
        simp only [hr]
        rw [ih hrest, deleteById_idCount_other _ _ (Ne.symm hid)]
      | error e =>
        simp only [hr]
        rw [ih hrest, saveItem_idCount]

/-- When the transporter is available throughout, the `processed` counter
returned by the loop counts exactly the batch items whose send succeeds. -/
theorem processLoop_processed (T : Nat → Bool) (A : QueueItem → SendAttempt)
    (tf : QueueItem → Nat) (items : List QueueItem) :
    ∀ (k : Nat) (queue : List QueueItem) (p : Nat),
      (∀ j, j < items.length → T (k + j) = true) →
      (processLoop T A tf items k queue p).2
        = p + items.countP (sendSucceeds A) := by
  induction items with
  | nil =>
    intro k queue p _
    simp [processLoop]
  | cons item rest ih =>
    intro k queue p hT
    rw [processLoop]
    have hT0 : T k = true := by simpa using hT 0 (by simp)
    rw [if_neg (by simp [hT0])]
    have hTrest : ∀ j, j < rest.length → T (k + 1 + j) = true := by
      intro j hj
      have e : k + 1 + j = k + (j + 1) := by omega
      rw [e]
      exact hT (j + 1) (by simp; omega)
    cases hr : raceWithTimeout10s (A item) with
    | ok v =>
      simp only [hr]
      rw [ih _ _ _ hTrest]
      have hs : sendSucceeds A item = true := by simp [sendSucceeds, hr]
      rw [List.countP_cons]
      simp [hs]
      omega
    | error e =>
      simp only [hr]
      rw [ih _ _ _ hTrest]
      have hs : sendSucceeds A item = false := by simp [sendSucceeds, hr]
      rw [List.countP_cons]
      simp [hs]

/-- When the transporter is available throughout and the batch items carry
pairwise-distinct ids each stored exactly once, a pass shrinks the
collection by exactly the number of successful sends. -/
theorem processLoop_length (T : Nat → Bool) (A : QueueItem → SendAttempt)
    (tf : QueueItem → Nat) (items : List QueueItem) :
    ∀ (queue : List QueueItem) (k p : Nat),
      (∀ j, j < items.length → T (k + j) = true) →
      (items.map QueueItem.id).Nodup →
      (∀ i ∈ items, idCount i.id queue = 1) →
      (processLoop T A tf items k queue p).1.length
        = queue.length - items.countP (sendSucceeds A) := by
  induction items with
  | nil =>
    intro queue k p _ _ _
    simp [processLoop]
  | cons item rest ih =>
    intro queue k p hT hnd hcnt
    rw [processLoop]
    have hT0 : T k = true := by simpa using hT 0 (by simp)
    rw [if_neg (by simp [hT0])]
    have hTrest : ∀ j, j < rest.length → T (k + 1 + j) = true := by
      intro j hj
      have e : k + 1 + j = k + (j + 1) := by omega
      rw [e]
      exact hT (j + 1) (by simp; omega)
    simp only [List.map_cons, List.nodup_cons] at hnd
    have hndrest : (rest.map QueueItem.id).Nodup := hnd.2
    have hnotin : item.id ∉ rest.map QueueItem.id := hnd.1
    cases hr : raceWithTimeout10s (A item) with
    | ok v =>
      simp only [hr]
      have hpos : 0 < idCount item.id queue := by
        rw [hcnt item (List.mem_cons_self _ _)]
        norm_num
      have hlen := deleteById_length item.id queue hpos
      have hcntrest : ∀ i ∈ rest, idCount i.id (deleteById item.id queue) = 1 := by
        intro i hi
        have hne : i.id ≠ item.id := by
          intro hc
          exact hnotin (hc ▸ List.mem_map_of_mem QueueItem.id hi)
        rw [deleteById_idCount_other _ _ hne, hcnt i (List.mem_cons_of_mem _ hi)]
      rw [ih _ _ _ hTrest hndrest hcntrest]
      have hs : sendSucceeds A item = true := by simp [sendSucceeds, hr]
      rw [List.countP_cons]
      simp only [hs, if_pos]
      omega
    | error e =>
      simp only [hr]
      have hcntrest : ∀ i ∈ rest,
          idCount i.id (saveItem (failUpdate (tf item) e item) queue) = 1 := by
        intro i hi
        rw [saveItem_idCount, hcnt i (List.mem_cons_of_mem _ hi)]
      rw [ih _ _ _ hTrest hndrest hcntrest, saveItem_length]
      have hs : sendSucceeds A item = false := by simp [sendSucceeds, hr]
      rw [List.countP_cons]
      simp [hs]

/-- When the transporter is available throughout and the batch items carry
pairwise-distinct ids, the pass removes the document of a successful item
(one occurrence of its id) and keeps the document count of a failing item. -/
theorem processLoop_item_final (T : Nat → Bool) (A : QueueItem → SendAttempt)
    (tf : QueueItem → Nat) (items : List QueueItem) :
    ∀ (queue : List QueueItem) (k p : Nat),
      (∀ j, j < items.length → T (k + j) = true) →
      (items.map QueueItem.id).Nodup →
      ∀ i ∈ items,
        idCount i.id (processLoop T A tf items k queue p).1
          = (if sendSucceeds A i then idCount i.id queue - 1
             else idCount i.id queue) := by
  induction items with
  | nil =>
    intro queue k p _ _ i hi
    cases hi
  | cons item rest ih =>
    intro queue k p hT hnd i hi
    rw [processLoop]
    have hT0 : T k = true := by simpa using hT 0 (by simp)
    rw [if_neg (by simp [hT0])]
    have hTrest : ∀ j, j < rest.length → T (k + 1 + j) = true := by
      intro j hj
      have e : k + 1 + j = k + (j + 1) := by omega
      rw [e]
      exact hT (j + 1) (by simp; omega)
    simp only [List.map_cons, List.nodup_cons] at hnd
    rcases List.mem_cons.mp hi with rfl | hirest
    · have hnid : ∀ j ∈ rest, j.id ≠ i.id := by
        intro j hj hc
        exact hnd.1 (hc ▸ List.mem_map_of_mem QueueItem.id hj)
      cases hr : raceWithTimeout10s (A i) with
      | ok v =>
        simp only [hr]
        have hs : sendSucceeds A i = true := by simp [sendSucceeds, hr]
        rw [processLoop_idCount_untouched T A tf rest i.id hnid,
          deleteById_idCount_self]
        simp [hs]
      | error e =>
        simp only [hr]
        have hs : sendSucceeds A i = false := by simp [sendSucceeds, hr]
        rw [processLoop_idCount_untouched T A tf rest i.id hnid, saveItem_idCount]
        simp [hs]
    · have hne : i.id ≠ item.id := by
        intro hc
        exact hnd.1 (hc ▸ List.mem_map_of_mem QueueItem.id hirest)
      cases hr : raceWithTimeout10s (A item) with
      | ok v =>
        simp only [hr]
        rw [ih _ _ _ hTrest hnd.2 i hirest,
          deleteById_idCount_other _ _ hne]
      | error e =>
        simp only [hr]
        rw [ih _ _ _ hTrest hnd.2 i hirest, saveItem_idCount]

/-- A pass whose k-th transporter lookup fails behaves exactly like a pass
over the first k batch items only (the loop hits `break` there). -/
theorem processLoop_break (T : Nat → Bool) (A : QueueItem → SendAttempt)
    (tf : QueueItem → Nat) (items : List QueueItem) :
    ∀ (k j : Nat) (queue : List QueueItem) (p : Nat),
      (∀ i, i < j → T (k + i) = true) → T (k + j) = false →
      processLoop T A tf items k queue p
        = processLoop T A tf (items.take j) k queue p := by
  induction items with
  | nil =>
    intro k j queue p _ _
    simp [processLoop]
  | cons item rest ih =>
    intro k j queue p hT hj
    cases j with
    | zero =>
      have h0 : T k = false := by simpa using hj
      rw [List.take_zero, processLoop, processLoop, if_pos (by simp [h0])]
    | succ j2 =>
      have hT0 : T k = true := by simpa using hT 0 (Nat.succ_pos j2)
      rw [List.take_succ_cons, processLoop]
      conv_rhs => rw [processLoop]
      rw [if_neg (by simp [hT0]), if_neg (by simp [hT0])]
      have hTr : ∀ i, i < j2 → T (k + 1 + i) = true := by
        intro i hi
        have e : k + 1 + i = k + (i + 1) := by omega
        rw [e]
        exact hT (i + 1) (by omega)
      have hjr : T (k + 1 + j2) = false := by
        have e : k + 1 + j2 = k + (j2 + 1) := by omega
        rw [e]
        exact hj
      cases hr : raceWithTimeout10s (A item) with
      | ok v =>
        simp only [hr]
        exact ih _ _ _ _ hTr hjr
      | error e =>
        simp only [hr]
        exact ih _ _ _ _ hTr hjr

/-! ## The full queue-processor pass (C3) -/

/-- C3: with the database connected and the transporter configured
throughout (and distinct document ids, as Mongo guarantees), a
processQueue pass selects only items with nextAttemptAt ≤ now — all of
them whenever at most the batch limit are due — visits them in
createdAt-ascending order, processes at most 10, returns the number of
items whose send succeeded, deletes exactly the successfully-sent items
(a failing item stays stored), and leaves every item whose nextAttemptAt
lies in the future untouched, still present with its record unchanged. -/
theorem processQueue_pass (transporterAt : Nat → Bool)
    (attempt : QueueItem → SendAttempt) (tfail : QueueItem → Nat)
    (now : Nat) (queue : List QueueItem)
    (hT : ∀ j, transporterAt j = true)
    (hnd : (queue.map QueueItem.id).Nodup) :
    (dueItems now queue).length ≤ 10 ∧
    (∀ i ∈ dueItems now queue, i.nextAttemptAt ≤ now ∧ i ∈ queue) ∧
    List.Pairwise (fun a b : QueueItem => a.createdAt ≤ b.createdAt)
      (dueItems now queue) ∧
    (∀ x ∈ queue, x.nextAttemptAt ≤ now →
      (queue.filter (fun i => i.nextAttemptAt ≤ now)).length ≤ 10 →
      x ∈ dueItems now queue) ∧
    (processEmailQueue true transporterAt attempt tfail now queue).2
      = (dueItems now queue).countP (sendSucceeds attempt) ∧
    (∀ i ∈ dueItems now queue, sendSucceeds attempt i = true →
      idCount i.id (processEmailQueue true transporterAt attempt tfail now queue).1
        = 0) ∧
    (∀ i ∈ dueItems now queue, sendSucceeds attempt i = false →
      idCount i.id (processEmailQueue true transporterAt attempt tfail now queue).1
        = 1) ∧
    (∀ x ∈ queue, now < x.nextAttemptAt →
      (processEmailQueue true transporterAt attempt tfail now queue).1.count x
          = queue.count x ∧
        x ∈ (processEmailQueue true transporterAt attempt tfail now queue).1) := by
  have hproc : processEmailQueue true transporterAt attempt tfail now queue
      = processLoop transporterAt attempt tfail (dueItems now queue) 0 queue 0 := by
    rw [processEmailQueue, if_neg (by simp)]
  have hdund := dueItems_ids_nodup now queue hnd
  refine ⟨dueItems_length_le now queue, dueItems_subset now queue,
    dueItems_sorted now queue,
    (fun x hx h1 h2 => dueItems_complete now queue x hx h1 h2), ?_, ?_, ?_, ?_⟩
  · rw [hproc, processLoop_processed _ _ _ _ _ _ _ (fun j _ => hT (0 + j))]
    omega
  · intro i hi hs
    have h1 : idCount i.id queue = 1 :=
      idCount_one_of_nodup queue i hnd (dueItems_subset now queue i hi).2
    rw [hproc,
      processLoop_item_final _ _ _ _ _ _ _ (fun j _ => hT (0 + j)) hdund i hi]
    simp [hs, h1]
  · intro i hi hs
    have h1 : idCount i.id queue = 1 :=
      idCount_one_of_nodup queue i hnd (dueItems_subset now queue i hi).2
    rw [hproc,
      processLoop_item_final _ _ _ _ _ _ _ (fun j _ => hT (0 + j)) hdund i hi]
    simp [hs, h1]
  · intro x hx hfut
    have hne : ∀ i ∈ dueItems now queue, i.id ≠ x.id := by
      intro i hi hc
      have hiq := (dueItems_subset now queue i hi).2
      have heq : i = x := List.inj_on_of_nodup_map hnd hiq hx hc
      have hdue := (dueItems_subset now queue i hi).1
      rw [heq] at hdue
      omega
    have hcount : (processEmailQueue true transporterAt attempt tfail now queue).1.count x
        = queue.count x := by
      rw [hproc]
      exact processLoop_count_untouched _ _ _ _ x hne 0 queue 0
    refine ⟨hcount, ?_⟩
    have : 0 < (processEmailQueue true transporterAt attempt tfail now queue).1.count x := by
      rw [hcount]
      exact List.count_pos_iff.mpr hx
    exact List.count_pos_iff.mp this

/-- Witness for C3: three stored items — id 1 due and succeeding, id 2 due
(older) and failing by timeout, id 3 due only in the future — at now = 100. -/
theorem processQueue_pass_witness :
    (∀ j : Nat, (fun _ : Nat => true) j = true) ∧
    (([(⟨1, "a", "f", "s", "t", "h", 0, 10, 5, none, none⟩ : QueueItem),
       ⟨2, "b", "f", "s", "t", "h", 2, 50, 3, none, none⟩,
       ⟨3, "c", "f", "s", "t", "h", 0, 200, 7, none, none⟩].map QueueItem.id).Nodup) ∧
    ((processEmailQueue true (fun _ => true)
        (fun i => if i.id = 1 then ⟨5, Except.ok "m"⟩ else ⟨20000, Except.ok "x"⟩)
        (fun _ => 150) 100
        [(⟨1, "a", "f", "s", "t", "h", 0, 10, 5, none, none⟩ : QueueItem),
         ⟨2, "b", "f", "s", "t", "h", 2, 50, 3, none, none⟩,
         ⟨3, "c", "f", "s", "t", "h", 0, 200, 7, none, none⟩]).2
      = (dueItems 100
          [(⟨1, "a", "f", "s", "t", "h", 0, 10, 5, none, none⟩ : QueueItem),
           ⟨2, "b", "f", "s", "t", "h", 2, 50, 3, none, none⟩,
           ⟨3, "c", "f", "s", "t", "h", 0, 200, 7, none, none⟩]).countP
          (sendSucceeds (fun i => if i.id = 1
            then ⟨5, Except.ok "m"⟩ else ⟨20000, Except.ok "x"⟩))) :=
  ⟨fun _ => rfl, by decide,
    (processQueue_pass (fun _ => true)
      (fun i => if i.id = 1 then ⟨5, Except.ok "m"⟩ else ⟨20000, Except.ok "x"⟩)
      (fun _ => 150) 100
      [(⟨1, "a", "f", "s", "t", "h", 0, 10, 5, none, none⟩ : QueueItem),
       ⟨2, "b", "f", "s", "t", "h", 2, 50, 3, none, none⟩,
       ⟨3, "c", "f", "s", "t", "h", 0, 200, 7, none, none⟩]
      (fun _ => rfl) (by decide)).2.2.2.2.1⟩

/-! ## Enqueue round-trip (C4) -/

/-- C4: enqueue persists a new item with attempts = 0 and
nextAttemptAt = now — due immediately — growing the queue by one record;
and a following processQueue pass (at any now2 ≥ now, batch not
overflowing, transporter up) in which exactly that item sends
successfully removes exactly that item: the pass reports one processed
item, no record with the new id remains, and the queue size drops back to
its pre-enqueue value. -/
theorem enqueue_roundTrip (queue : List QueueItem) (newId now now2 : Nat)
    (toA fromA subj txt htm : String) (bId : Option String)
    (transporterAt : Nat → Bool) (attempt : QueueItem → SendAttempt)
    (tfail : QueueItem → Nat)
    (hT : ∀ j, transporterAt j = true)
    (hnd : (queue.map QueueItem.id).Nodup)
    (hfresh : ∀ x ∈ queue, x.id ≠ newId)
    (hnow : now ≤ now2)
    (hbatch : ((enqueueEmail newId now toA fromA subj txt htm bId queue).filter
        (fun i => i.nextAttemptAt ≤ now2)).length ≤ 10)
    (hsucc : sendSucceeds attempt
        ⟨newId, toA, fromA, subj, txt, htm, 0, now, now, none, bId⟩ = true)
    (hothers : ∀ i ∈ queue, sendSucceeds attempt i = false) :
    (⟨newId, toA, fromA, subj, txt, htm, 0, now, now, none, bId⟩ : QueueItem).attempts
      = 0 ∧
    (⟨newId, toA, fromA, subj, txt, htm, 0, now, now, none, bId⟩ : QueueItem).nextAttemptAt
      = now ∧
    (⟨newId, toA, fromA, subj, txt, htm, 0, now, now, none, bId⟩ : QueueItem)
      ∈ enqueueEmail newId now toA fromA subj txt htm bId queue ∧
    (enqueueEmail newId now toA fromA subj txt htm bId queue).length
      = queue.length + 1 ∧
    (processEmailQueue true transporterAt attempt tfail now2
        (enqueueEmail newId now toA fromA subj txt htm bId queue)).2 = 1 ∧
    idCount newId (processEmailQueue true transporterAt attempt tfail now2
        (enqueueEmail newId now toA fromA subj txt htm bId queue)).1 = 0 ∧
    (processEmailQueue true transporterAt attempt tfail now2
        (enqueueEmail newId now toA fromA subj txt htm bId queue)).1.length
      = queue.length := by
  set newItem : QueueItem := ⟨newId, toA, fromA, subj, txt, htm, 0, now, now, none, bId⟩
    with hnew
  have hq1 : enqueueEmail newId now toA fromA subj txt htm bId queue
      = queue ++ [newItem] := rfl
  have hndq1 : ((enqueueEmail newId now toA fromA subj txt htm bId queue).map
      QueueItem.id).Nodup := by
    rw [hq1, List.map_append]
    refine List.nodup_append.mpr ⟨hnd, by simp, ?_⟩
    intro a ha hb
    simp at hb
    rcases List.mem_map.mp ha with ⟨x, hxq, hxid⟩
    exact hfresh x hxq (by rw [hxid, hb])
  have hmemq1 : newItem ∈ enqueueEmail newId now toA fromA subj txt htm bId queue := by
    rw [hq1]
    simp
  have hdue : newItem.nextAttemptAt ≤ now2 := hnow
  have hmemdue : newItem ∈ dueItems now2
      (enqueueEmail newId now toA fromA subj txt htm bId queue) :=
    dueItems_complete now2 _ newItem hmemq1 hdue hbatch
  have hnd_due := dueItems_ids_nodup now2 _ hndq1
  have hnodup_due := List.Nodup.of_map QueueItem.id hnd_due
  have hcong : ∀ i ∈ dueItems now2
      (enqueueEmail newId now toA fromA subj txt htm bId queue),
      sendSucceeds attempt i = true ↔ (i == newItem) = true := by
    intro i hi
    have hiq1 := (dueItems_subset now2 _ i hi).2
    rw [hq1] at hiq1
    rcases List.mem_append.mp hiq1 with hiq | hinew
    · have hne : i ≠ newItem := by
        intro hc
        exact hfresh i hiq (by rw [hc])
      rw [hothers i hiq]
      simp [hne]
    · have : i = newItem := by simpa using hinew
      subst this
      simp [hsucc]
  have hcount1 : (dueItems now2
      (enqueueEmail newId now toA fromA subj txt htm bId queue)).countP
      (sendSucceeds attempt) = 1 := by
    rw [List.countP_congr hcong, ← List.count_eq_countP]
    exact List.count_eq_one_of_mem hnodup_due hmemdue
  have hproc : processEmailQueue true transporterAt attempt tfail now2
      (enqueueEmail newId now toA fromA subj txt htm bId queue)
      = processLoop transporterAt attempt tfail
        (dueItems now2 (enqueueEmail newId now toA fromA subj txt htm bId queue)) 0
        (enqueueEmail newId now toA fromA subj txt htm bId queue) 0 := by
    rw [processEmailQueue, if_neg (by simp)]
  have hlen1 : (enqueueEmail newId now toA fromA subj txt htm bId queue).length
      = queue.length + 1 := by
    rw [hq1]
    simp
  refine ⟨rfl, rfl, hmemq1, hlen1, ?_, ?_, ?_⟩
  · rw [hproc, processLoop_processed _ _ _ _ _ _ _ (fun j _ => hT (0 + j)), hcount1]
  · have h1 : idCount newItem.id
        (enqueueEmail newId now toA fromA subj txt htm bId queue) = 1 :=
      idCount_one_of_nodup _ newItem hndq1 hmemq1
    have := processLoop_item_final transporterAt attempt tfail
      (dueItems now2 (enqueueEmail newId now toA fromA subj txt htm bId queue))
      (enqueueEmail newId now toA fromA subj txt htm bId queue) 0 0
      (fun j _ => hT (0 + j)) hnd_due newItem hmemdue
    rw [hproc]
    rw [show idCount newId = idCount newItem.id from rfl, this]
    simp [hsucc, h1]
  · have hcnt : ∀ i ∈ dueItems now2
        (enqueueEmail newId now toA fromA subj txt htm bId queue),
        idCount i.id (enqueueEmail newId now toA fromA subj txt htm bId queue) = 1 :=
      fun i hi => idCount_one_of_nodup _ i hndq1 (dueItems_subset now2 _ i hi).2
    rw [hproc, processLoop_length _ _ _ _ _ _ _ (fun j _ => hT (0 + j)) hnd_due hcnt,
      hcount1, hlen1]
    omega

/-- Witness for C4: enqueue a fresh item (id 9) at time 50 into a queue
holding one failing due item, then run a pass at time 100. -/
theorem enqueue_roundTrip_witness :
    (∀ j : Nat, (fun _ : Nat => true) j = true) ∧
    (([(⟨2, "b", "f", "s", "t", "h", 1, 40, 2, none, none⟩ : QueueItem)].map
      QueueItem.id).Nodup) ∧
    (∀ x ∈ [(⟨2, "b", "f", "s", "t", "h", 1, 40, 2, none, none⟩ : QueueItem)],
      x.id ≠ 9) ∧
    50 ≤ 100 ∧
    idCount 9 (processEmailQueue true (fun _ => true)
        (fun i => if i.id = 9 then ⟨5, Except.ok "m"⟩ else ⟨20000, Except.ok "x"⟩)
        (fun _ => 110) 100
        (enqueueEmail 9 50 "a" "f" "s" "t" "h" none
          [(⟨2, "b", "f", "s", "t", "h", 1, 40, 2, none, none⟩ : QueueItem)])).1 = 0 ∧
    (processEmailQueue true (fun _ => true)
        (fun i => if i.id = 9 then ⟨5, Except.ok "m"⟩ else ⟨20000, Except.ok "x"⟩)
        (fun _ => 110) 100
        (enqueueEmail 9 50 "a" "f" "s" "t" "h" none
          [(⟨2, "b", "f", "s", "t", "h", 1, 40, 2, none, none⟩ : QueueItem)])).1.length
      = [(⟨2, "b", "f", "s", "t", "h", 1, 40, 2, none, none⟩ : QueueItem)].length :=
  ⟨fun _ => rfl, by decide, by decide, by decide,
    (enqueue_roundTrip
      [(⟨2, "b", "f", "s", "t", "h", 1, 40, 2, none, none⟩ : QueueItem)]
      9 50 100 "a" "f" "s" "t" "h" none (fun _ => true)
      (fun i => if i.id = 9 then ⟨5, Except.ok "m"⟩ else ⟨20000, Except.ok "x"⟩)
      (fun _ => 110) (fun _ => rfl) (by decide) (by decide) (by decide)
      (by decide) (by decide) (by decide)).2.2.2.2.2.1,
    (enqueue_roundTrip
      [(⟨2, "b", "f", "s", "t", "h", 1, 40, 2, none, none⟩ : QueueItem)]
      9 50 100 "a" "f" "s" "t" "h" none (fun _ => true)
      (fun i => if i.id = 9 then ⟨5, Except.ok "m"⟩ else ⟨20000, Except.ok "x"⟩)
      (fun _ => 110) (fun _ => rfl) (by decide) (by decide) (by decide)
      (by decide) (by decide) (by decide)).2.2.2.2.2.2⟩

/-! ## Processor guards (C10) -/

/-- C10: with the database connection down, a processQueue pass returns 0
and leaves the collection exactly as it was; with the database up but the
k-th transporter lookup of the pass failing (the earlier ones
succeeding), the pass stops there — it equals a pass over the first k due
items only — so it still returns the number of items sent before the
stop, while every due item from position k on is left untouched: its
record (attempts, nextAttemptAt, lastError) is unchanged and still
stored. -/
theorem processQueue_guards (transporterAt : Nat → Bool)
    (attempt : QueueItem → SendAttempt) (tfail : QueueItem → Nat)
    (now : Nat) (queue : List QueueItem) (k : Nat)
    (hnd : (queue.map QueueItem.id).Nodup)
    (hT : ∀ i, i < k → transporterAt i = true)
    (hk : transporterAt k = false) :
    processEmailQueue false transporterAt attempt tfail now queue = (queue, 0) ∧
    (processEmailQueue true transporterAt attempt tfail now queue).2
      = ((dueItems now queue).take k).countP (sendSucceeds attempt) ∧
    (∀ x ∈ (dueItems now queue).drop k,
      (processEmailQueue true transporterAt attempt tfail now queue).1.count x
          = queue.count x ∧
        x ∈ (processEmailQueue true transporterAt attempt tfail now queue).1) := by
  have hproc : processEmailQueue true transporterAt attempt tfail now queue
      = processLoop transporterAt attempt tfail ((dueItems now queue).take k)
          0 queue 0 := by
    rw [processEmailQueue, if_neg (by simp)]
    exact processLoop_break _ _ _ _ 0 k queue 0
      (fun i hi => by simpa using hT i hi) (by simpa using hk)
  refine ⟨rfl, ?_, ?_⟩
  · rw [hproc, processLoop_processed _ _ _ _ _ _ _ ?_]
    · omega
    · intro j hj
      have hjk : j < k := lt_of_lt_of_le hj (List.length_take_le _ _)
      simpa using hT j hjk
  · intro x hx
    have hdisj : ∀ i ∈ (dueItems now queue).take k, i.id ≠ x.id := by
      have hdund := dueItems_ids_nodup now queue hnd
      intro i hi hc
      have hsplit : (dueItems now queue).map QueueItem.id
          = ((dueItems now queue).take k).map QueueItem.id
            ++ ((dueItems now queue).drop k).map QueueItem.id := by
        rw [← List.map_append, List.take_append_drop]
      rw [hsplit] at hdund
      have hdisj2 := (List.nodup_append.mp hdund).2.2
      refine hdisj2 (List.mem_map_of_mem QueueItem.id hi) ?_
      rw [hc]
      exact List.mem_map_of_mem QueueItem.id hx
    have hxdue : x ∈ dueItems now queue := (List.drop_sublist _ _).subset hx
    have hxq : x ∈ queue := (dueItems_subset now queue x hxdue).2
    have hcount : (processEmailQueue true transporterAt attempt tfail now queue).1.count x
        = queue.count x := by
      rw [hproc]
      exact processLoop_count_untouched _ _ _ _ x hdisj 0 queue 0
    refine ⟨hcount, ?_⟩
    have hpos : 0 < (processEmailQueue true transporterAt attempt tfail now queue).1.count x := by
      rw [hcount]
      exact List.count_pos_iff.mpr hxq
    exact List.count_pos_iff.mp hpos

/-- Witness for C10: two due items, the transporter disappearing at the
second lookup (k = 1): the first item is sent and deleted, the second is
untouched, and the pass still reports one processed item. -/
theorem processQueue_guards_witness :
    (([(⟨1, "a", "f", "s", "t", "h", 0, 10, 5, none, none⟩ : QueueItem),
       ⟨2, "b", "f", "s", "t", "h", 0, 20, 9, none, none⟩].map QueueItem.id).Nodup) ∧
    (∀ i : Nat, i < 1 → (fun j : Nat => j == 0) i = true) ∧
    ((fun j : Nat => j == 0) 1 = false) ∧
    (processEmailQueue false (fun j => j == 0)
        (fun _ => ⟨5, Except.ok "m"⟩) (fun _ => 150) 100
        [(⟨1, "a", "f", "s", "t", "h", 0, 10, 5, none, none⟩ : QueueItem),
         ⟨2, "b", "f", "s", "t", "h", 0, 20, 9, none, none⟩]
      = ([(⟨1, "a", "f", "s", "t", "h", 0, 10, 5, none, none⟩ : QueueItem),
          ⟨2, "b", "f", "s", "t", "h", 0, 20, 9, none, none⟩], 0) ∧
     (processEmailQueue true (fun j => j == 0)
        (fun _ => ⟨5, Except.ok "m"⟩) (fun _ => 150) 100
        [(⟨1, "a", "f", "s", "t", "h", 0, 10, 5, none, none⟩ : QueueItem),
         ⟨2, "b", "f", "s", "t", "h", 0, 20, 9, none, none⟩]).2
      = ((dueItems 100
          [(⟨1, "a", "f", "s", "t", "h", 0, 10, 5, none, none⟩ : QueueItem),
           ⟨2, "b", "f", "s", "t", "h", 0, 20, 9, none, none⟩]).take 1).countP
          (sendSucceeds (fun _ => ⟨5, Except.ok "m"⟩)) ∧
     (∀ x ∈ (dueItems 100
          [(⟨1, "a", "f", "s", "t", "h", 0, 10, 5, none, none⟩ : QueueItem),
           ⟨2, "b", "f", "s", "t", "h", 0, 20, 9, none, none⟩]).drop 1,
        (processEmailQueue true (fun j => j == 0)
            (fun _ => ⟨5, Except.ok "m"⟩) (fun _ => 150) 100
            [(⟨1, "a", "f", "s", "t", "h", 0, 10, 5, none, none⟩ : QueueItem),
             ⟨2, "b", "f", "s", "t", "h", 0, 20, 9, none, none⟩]).1.count x
            = [(⟨1, "a", "f", "s", "t", "h", 0, 10, 5, none, none⟩ : QueueItem),
               ⟨2, "b", "f", "s", "t", "h", 0, 20, 9, none, none⟩].count x ∧
          x ∈ (processEmailQueue true (fun j => j == 0)
            (fun _ => ⟨5, Except.ok "m"⟩) (fun _ => 150) 100
            [(⟨1, "a", "f", "s", "t", "h", 0, 10, 5, none, none⟩ : QueueItem),
             ⟨2, "b", "f", "s", "t", "h", 0, 20, 9, none, none⟩]).1)) :=
  ⟨by decide,
    fun i hi => by
      have : i = 0 := by omega
      rw [this]
      rfl,
    rfl,
    processQueue_guards (fun j => j == 0) (fun _ => ⟨5, Except.ok "m"⟩)
      (fun _ => 150) 100
      [(⟨1, "a", "f", "s", "t", "h", 0, 10, 5, none, none⟩ : QueueItem),
       ⟨2, "b", "f", "s", "t", "h", 0, 20, 9, none, none⟩] 1
      (by decide)
      (fun i hi => by
        have : i = 0 := by omega
        rw [this]
        rfl)
      rfl⟩

end Teleka
